import Mathlib

/-
Shallow embedding of `src/lambda_function.py` (an AWS Lambda that creates
backup AMIs of tagged EC2 instances and expires old ones).

Modelling conventions:
  * Python strings are `List Char` (`PyStr`); Python string comparison
    (`<=`) is code-point lexicographic (`pyStrLe`), `str.find` is `strFind`.
  * Python exceptions are an `Except PyErr` result; the embedded functions
    short-circuit exactly where the source lets an exception propagate.
    Python 3 semantics are used throughout (in particular `None <= str`
    and `False <= str` raise `TypeError`).
  * Provider (boto3) calls are parameters: image creation and image
    deregistration are injected as `Except`-valued functions so that both
    the all-succeed run and provider failures can be analysed; snapshot
    listing is a plain input list, and performed deletions are reported as
    an event trace.
  * `datetime.date.today() + datetime.timedelta(days=n)` is
    `dateAddTimedelta`: Python raises `OverflowError` when `n` exceeds the
    `timedelta` day bound (999999999) or the resulting ordinal leaves
    `[1, 3652059]` (dates 0001-01-01 .. 9999-12-31); the ordinal check
    uses `toOrdinal`, the floor-division day count of `date.toordinal`,
    and the in-range result is calendar-day addition (`addDays`, iterated
    successor/predecessor on a proleptic Gregorian `Date`).
    `strftime('%Y%m%d%H%M%S')` is fixed-width zero-padded decimal
    formatting (`padNum`).
-/

/-- Python strings, as lists of characters. -/
abbrev PyStr := List Char

/-- The Python exceptions the embedded code can raise. -/
inductive PyErr where
  | valueError
  | typeError
  | nameError
  | clientError
  | overflowError
  deriving DecidableEq, Repr

/-- Equality of `Except` results is decidable componentwise. -/
instance exceptDecEq {e a : Type} [DecidableEq e] [DecidableEq a] :
    DecidableEq (Except e a)
  | Except.ok x, Except.ok y =>
    if h : x = y then isTrue (by rw [h])
    else isFalse (by intro hc; injection hc; contradiction)
  | Except.ok _, Except.error _ => isFalse (by intro hc; cases hc)
  | Except.error _, Except.ok _ => isFalse (by intro hc; cases hc)
  | Except.error x, Except.error y =>
    if h : x = y then isTrue (by rw [h])
    else isFalse (by intro hc; injection hc; contradiction)

/-- Python 3 string `<` (code-point lexicographic, strict). -/
def pyStrLt : PyStr → PyStr → Bool
  | [], [] => false
  | [], _ :: _ => true
  | _ :: _, [] => false
  | a :: as, b :: bs => if a < b then true else if b < a then false else pyStrLt as bs

/-- Python 3 string `<=` (code-point lexicographic). -/
def pyStrLe : PyStr → PyStr → Bool
  | [], _ => true
  | _ :: _, [] => false
  | a :: as, b :: bs => if a < b then true else if b < a then false else pyStrLe as bs

/-- Strip leading and trailing whitespace, as Python `int(str)` does. -/
def pyStrip (s : PyStr) : PyStr :=
  ((s.dropWhile Char.isWhitespace).reverse.dropWhile Char.isWhitespace).reverse

/-- Decimal value of a nonempty all-digit string. -/
def parseDigits? (s : PyStr) : Option Nat :=
  if s ≠ [] ∧ s.all Char.isDigit then
    some (s.foldl (fun a c => 10 * a + (c.toNat - 48)) 0)
  else none

/-- Python `int(s)` on a string: optional surrounding whitespace, optional
sign, at least one ASCII digit; anything else raises `ValueError`
(modelled as `none`). -/
def pyInt? (s : PyStr) : Option Int :=
  match pyStrip s with
  | '+' :: rest => (parseDigits? rest).map (fun n => (n : Int))
  | '-' :: rest => (parseDigits? rest).map (fun n => -(n : Int))
  | t => (parseDigits? t).map (fun n => (n : Int))

/-- The ASCII digit character for `n % 10`. -/
def digitChar (n : Nat) : Char := Char.ofNat (48 + n % 10)

/-- Fixed-width zero-padded decimal rendering (width `w`), as produced by
`strftime` fields such as `%Y`, `%m`, `%d`, `%H`, `%M`, `%S`. -/
def padNum : Nat → Nat → PyStr
  | 0, _ => []
  | w + 1, n => padNum w (n / 10) ++ [digitChar n]

/-- A proleptic Gregorian calendar date (`datetime.date`). -/
structure Date where
  year : Int
  month : Nat
  day : Nat
  deriving DecidableEq, Repr

/-- Gregorian leap-year rule. -/
def isLeap (y : Int) : Bool := y % 4 == 0 && (y % 100 != 0 || y % 400 == 0)

/-- Number of days in month `m` of year `y`. -/
def daysInMonth (y : Int) (m : Nat) : Nat :=
  if m == 2 then (if isLeap y then 29 else 28)
  else if m == 4 || m == 6 || m == 9 || m == 11 then 30
  else 31

/-- The calendar day after `d`. -/
def nextDay (d : Date) : Date :=
  if d.day < daysInMonth d.year d.month then ⟨d.year, d.month, d.day + 1⟩
  else if d.month < 12 then ⟨d.year, d.month + 1, 1⟩
  else ⟨d.year + 1, 1, 1⟩

/-- The calendar day before `d`. -/
def prevDay (d : Date) : Date :=
  if 1 < d.day then ⟨d.year, d.month, d.day - 1⟩
  else if 1 < d.month then ⟨d.year, d.month - 1, daysInMonth d.year (d.month - 1)⟩
  else ⟨d.year - 1, 12, 31⟩

/-- Calendar-day addition as iterated successor / predecessor, on the
unbounded proleptic calendar; the faithful, range-checked embedding of
`date + timedelta` is `dateAddTimedelta` below. -/
def addDays (d : Date) (n : Int) : Date :=
  if 0 ≤ n then nextDay^[n.toNat] d else prevDay^[(-n).toNat] d

/-- Length of February in year `y`. -/
def febDays (y : Int) : Nat := if isLeap y then 29 else 28

/-- Days in year `y` strictly before month `m` (CPython
`_days_before_month`). -/
def daysBeforeMonth (y : Int) (m : Nat) : Nat :=
  match m with
  | 1 => 0
  | 2 => 31
  | 3 => 31 + febDays y
  | 4 => 62 + febDays y
  | 5 => 92 + febDays y
  | 6 => 123 + febDays y
  | 7 => 153 + febDays y
  | 8 => 184 + febDays y
  | 9 => 215 + febDays y
  | 10 => 245 + febDays y
  | 11 => 276 + febDays y
  | 12 => 306 + febDays y
  | _ => 0

/-- CPython `date.toordinal`: day count with `date(1,1,1)` at 1; `/` on
`Int` in Lean is floor division, matching Python `//`. -/
def toOrdinal (d : Date) : Int :=
  365 * (d.year - 1) + (d.year - 1) / 4 - (d.year - 1) / 100 + (d.year - 1) / 400 +
    (daysBeforeMonth d.year d.month : Int) + (d.day : Int)

/-- `datetime.date + datetime.timedelta(days=n)`, faithfully: constructing
`timedelta(days=n)` raises `OverflowError` when `|n| > 999999999`, and the
addition raises `OverflowError` when the resulting ordinal
`d.toordinal() + n` leaves `[1, 3652059]` (`date.max.toordinal()`);
otherwise the result is the date `n` calendar days away. -/
def dateAddTimedelta (d : Date) (n : Int) : Except PyErr Date :=
  if n < -999999999 ∨ 999999999 < n then Except.error PyErr.overflowError
  else if 1 ≤ toOrdinal d + n ∧ toOrdinal d + n ≤ 3652059 then Except.ok (addDays d n)
  else Except.error PyErr.overflowError

/-- A structurally well-formed calendar date. -/
def Date.Valid (d : Date) : Prop :=
  1 ≤ d.month ∧ d.month ≤ 12 ∧ 1 ≤ d.day ∧ d.day ≤ daysInMonth d.year d.month

/-- Validity of a date is decidable. -/
instance dateValidDec (d : Date) : Decidable d.Valid :=
  inferInstanceAs (Decidable
    (1 ≤ d.month ∧ d.month ≤ 12 ∧ 1 ≤ d.day ∧ d.day ≤ daysInMonth d.year d.month))

/-- Chronological order on dates (year, then month, then day). -/
def dateLe (d1 d2 : Date) : Prop :=
  d1.year < d2.year ∨
    (d1.year = d2.year ∧
      (d1.month < d2.month ∨ (d1.month = d2.month ∧ d1.day ≤ d2.day)))

/-- `%Y%m%d` part of `strftime`: zero-padded year, month, day. -/
def fmtDate (d : Date) : PyStr :=
  padNum 4 d.year.toNat ++ padNum 2 d.month ++ padNum 2 d.day

/-- `datetime.date.strftime('%Y%m%d%H%M%S')`: a date carries a zero
time-of-day. -/
def strftimeDateYmdHms (d : Date) : PyStr :=
  fmtDate d ++ padNum 2 0 ++ padNum 2 0 ++ padNum 2 0

/-- `datetime.datetime.now().strftime('%Y%m%d%H%M%S')` for a clock reading
of date `d`, time `h:mi:s`. -/
def strftimeNowYmdHms (d : Date) (h mi s : Nat) : PyStr :=
  fmtDate d ++ padNum 2 h ++ padNum 2 mi ++ padNum 2 s

/-- An EC2 instance tag (`{'Key': ..., 'Value': ...}`); instance tags are
read with `tag['Value']`, so the value is total. -/
structure Tag where
  key : PyStr
  value : PyStr
  deriving DecidableEq, Repr

/-- An EC2 instance: id plus its tag list (`instance['Tags']`). -/
structure Instance where
  instanceId : PyStr
  tags : List Tag
  deriving DecidableEq, Repr

/-- Source `get_instance_name` (lines 45-57):
`[(tag['Value']) for tag in instance['Tags'] if tag['Key'] == 'Name'][0]`,
with `IndexError` giving `"Not Specified"`. -/
def get_instance_name (inst : Instance) : PyStr :=
  match (inst.tags.filter (fun t => t.key == "Name".data)).head? with
  | some t => t.value
  | none => "Not Specified".data

/-- `int(tag['Value'])` on one tag: `ValueError` when not parseable. -/
def int_of_tag (t : Tag) : Except PyErr Int :=
  match pyInt? t.value with
  | some v => Except.ok v
  | none => Except.error PyErr.valueError

/-- Eager evaluation of `int(tag['Value'])` over a tag list, as a Python
list comprehension does: the first unparseable value raises. -/
def intsOfTags : List Tag → Except PyErr (List Int)
  | [] => Except.ok []
  | t :: ts => do
    let v ← int_of_tag t
    let vs ← intsOfTags ts
    Except.ok (v :: vs)

/-- Source `get_instance_retention_days` (lines 60-73): the eager list
comprehension `[int(tag['Value']) for tag in instance['Tags'] if
tag['Key'] == 'Retention']` evaluates `int` on every `Retention` tag
(raising `ValueError` on the first unparseable one, uncaught), then `[0]`
with only `IndexError` caught, defaulting to `7`. -/
def get_instance_retention_days (inst : Instance) : Except PyErr Int :=
  match intsOfTags (inst.tags.filter (fun t => t.key == "Retention".data)) with
  | Except.error e => Except.error e
  | Except.ok [] => Except.ok 7
  | Except.ok (v :: _) => Except.ok v

/-- Source `create_ami_tags` (lines 96-110), the computed tag value:
`(datetime.date.today() + datetime.timedelta(days=retention_days))
.strftime('%Y%m%d%H%M%S')`; line 104 raises `OverflowError` when the
addition leaves Python's date/timedelta range, and then no tag is
written. -/
def deregister_on (today : Date) (retention_days : Int) : Except PyErr PyStr :=
  match dateAddTimedelta today retention_days with
  | Except.ok d => Except.ok (strftimeDateYmdHms d)
  | Except.error e => Except.error e

/-- Source `create_backup_amis` (lines 113-126): for each enumerated
instance, resolve name and retention, call `create_image` (injected as
`createImage`, which can raise like any boto3 call), then `create_tags`
with `DeleteOn = deregister_on`.  There is no `try`/`except` in the loop:
any error propagates and ends the whole run.  The result records, per
successfully processed instance, the created image id and its `DeleteOn`
tag value. -/
def create_backup_amis (createImage : PyStr → PyStr → Except PyErr PyStr)
    (today : Date) : List Instance → Except PyErr (List (PyStr × PyStr))
  | [] => Except.ok []
  | inst :: rest =>
    let instance_name := get_instance_name inst
    match get_instance_retention_days inst with
    | Except.error e => Except.error e
    | Except.ok retention_days =>
      match createImage inst.instanceId instance_name with
      | Except.error e => Except.error e
      | Except.ok imageId =>
        match deregister_on today retention_days with
        | Except.error e => Except.error e
        | Except.ok deleteOn =>
          match create_backup_amis createImage today rest with
          | Except.error e => Except.error e
          | Except.ok others => Except.ok ((imageId, deleteOn) :: others)

/-- An image tag as read in the expiry phase: the source uses
`t.get('Value')`, which yields `None` when the `Value` entry is missing,
so the value is optional. -/
structure ImageTag where
  key : PyStr
  value? : Option PyStr
  deriving DecidableEq, Repr

/-- An enumerated AMI: id plus `image.tags`, which boto3 can return as
`None`. -/
structure Image where
  id : PyStr
  tags : Option (List ImageTag)
  deriving DecidableEq, Repr

/-- A value the variable `deletion_date` can hold in the source's expiry
loop: a string (readable tag value), Python `None` (tag present, value
unreadable), or Python `False` (the `IndexError` default). -/
inductive PyVal where
  | str (s : PyStr)
  | noneV
  | falseV
  deriving DecidableEq, Repr

/-- `deletion_date <= todays_date` under Python 3: string comparison is
lexicographic; comparing `None` or `False` against a string raises
`TypeError`. -/
def pyLeStr (v : PyVal) (t : PyStr) : Except PyErr Bool :=
  match v with
  | PyVal.str s => Except.ok (pyStrLe s t)
  | PyVal.noneV => Except.error PyErr.typeError
  | PyVal.falseV => Except.error PyErr.typeError

/-- The `try` block body of `get_list_of_images_to_deregister` for one
image with a non-`None` tag list:
`[t.get('Value') for t in image.tags if t['Key'] == 'DeleteOn'][0]`,
with the `IndexError` handler giving `False`. -/
def extractDeleteOn (tags : List ImageTag) : PyVal :=
  match (tags.filter (fun t => t.key == "DeleteOn".data)).head? with
  | some t =>
    match t.value? with
    | some s => PyVal.str s
    | none => PyVal.noneV
  | none => PyVal.falseV

/-- The loop of source `get_list_of_images_to_deregister` (lines 146-161).
The state `deletion_date` mirrors the Python local variable: `none` means
it has never been assigned (referencing it raises `NameError`); when
`image.tags` is `None` the variable keeps its previous value.  `acc`
accumulates `amis_to_delete` in reverse. -/
def get_list_go (todays_date : PyStr) (deletion_date : Option PyVal)
    (acc : List PyStr) : List Image → Except PyErr (List PyStr)
  | [] => Except.ok acc.reverse
  | image :: rest =>
    let dd : Option PyVal :=
      match image.tags with
      | some ts => some (extractDeleteOn ts)
      | none => deletion_date
    match dd with
    | none => Except.error PyErr.nameError
    | some v =>
      match pyLeStr v todays_date with
      | Except.error e => Except.error e
      | Except.ok b => get_list_go todays_date (some v) (if b then image.id :: acc else acc) rest

/-- Source `get_list_of_images_to_deregister` (lines 139-161), with the
clock (`todays_date`, read inside the loop) fixed as a parameter. -/
def get_list_of_images_to_deregister (todays_date : PyStr)
    (amis_with_deleteon_tag : List Image) : Except PyErr (List PyStr) :=
  get_list_go todays_date none [] amis_with_deleteon_tag

/-- An EBS snapshot: id and free-text description. -/
structure Snapshot where
  snapshotId : PyStr
  description : PyStr
  deriving DecidableEq, Repr

/-- Helper for `strFind`: first index `≥ i` at which `needle` occurs. -/
def strFindAux (needle : PyStr) : PyStr → Nat → Option Nat
  | [], i => if needle.isPrefixOf ([] : PyStr) then some i else none
  | c :: rest, i =>
    if needle.isPrefixOf (c :: rest) then some i else strFindAux needle rest (i + 1)

/-- Python `s.find(needle)`: index of the first occurrence, `-1` when
there is none. -/
def strFind (s needle : PyStr) : Int :=
  match strFindAux needle s 0 with
  | some i => (i : Int)
  | none => -1

/-- Source `delete_snapshots` (lines 164-177) for one call: the account's
snapshot listing is the input `snapshots`; a snapshot is deleted when
`snapshot['Description'].find(amis_to_delete) > 0` (note the source's
strict `> 0`, and that at the only call site the parameter named
`amis_to_delete` is bound to a single image id).  Returns the ids of the
deleted snapshots, in listing order. -/
def delete_snapshots (snapshots : List Snapshot) (amis_to_delete : PyStr) : List PyStr :=
  (snapshots.filter (fun sn => decide ((0 : Int) < strFind sn.description amis_to_delete))).map
    Snapshot.snapshotId

/-- One observable provider action of the expiry phase. -/
inductive Ev where
  | dereg (imageId : PyStr)
  | delSnap (snapshotId : PyStr)
  deriving DecidableEq, Repr

/-- Source `deregister_amis` (lines 180-194): for each ami in
`amis_to_delete`, call `deregister_image` (injected, can raise) and then
`delete_snapshots(ec2_client, ami)` with the single id.  The result is
the ordered trace of provider actions; an uncaught error aborts the
whole loop (there is no `try`/`except`). -/
def deregister_amis (deregisterImage : PyStr → Except PyErr Unit)
    (snapshots : List Snapshot) : List PyStr → Except PyErr (List Ev)
  | [] => Except.ok []
  | ami :: rest => do
    let _ ← deregisterImage ami
    let tr ← deregister_amis deregisterImage snapshots rest
    Except.ok (Ev.dereg ami :: ((delete_snapshots snapshots ami).map Ev.delSnap ++ tr))

/-- A deregistration call that always succeeds. -/
def okDereg : PyStr → Except PyErr Unit := fun _ => Except.ok ()

theorem char_eq_of_not_lt {a b : Char} (h1 : ¬ a < b) (h2 : ¬ b < a) : a = b :=
  le_antisymm (not_lt.mp h2) (not_lt.mp h1)

theorem pyStrLe_refl (s : PyStr) : pyStrLe s s = true := by
  induction s with
  | nil => rfl
  | cons a as ih => simp [pyStrLe, lt_irrefl, ih]

theorem pyStrLt_append {a b : PyStr} (h : a.length = b.length) (s t : PyStr) :
    pyStrLt (a ++ s) (b ++ t) = true ↔
      pyStrLt a b = true ∨ (a = b ∧ pyStrLt s t = true) := by
  induction a generalizing b with
  | nil =>
    cases b with
    | nil => simp [pyStrLt]
    | cons _ _ => simp at h
  | cons x xs ih =>
    cases b with
    | nil => simp at h
    | cons y ys =>
      simp only [List.cons_append, pyStrLt]
      by_cases hxy : x < y
      · simp [hxy]
      · by_cases hyx : y < x
        · simp [hxy, hyx, List.cons.injEq, (ne_of_gt hyx : x ≠ y)]
        · have hx : x = y := char_eq_of_not_lt hxy hyx
          subst hx
          rw [if_neg hxy, if_neg hxy, if_neg hxy, if_neg hxy]
          simp only [List.append_eq]
          rw [ih (by simpa using h)]
          simp [List.cons.injEq]

theorem pyStrLe_append {a b : PyStr} (h : a.length = b.length) (s t : PyStr) :
    pyStrLe (a ++ s) (b ++ t) = true ↔
      pyStrLt a b = true ∨ (a = b ∧ pyStrLe s t = true) := by
  induction a generalizing b with
  | nil =>
    cases b with
    | nil => simp [pyStrLt]
    | cons _ _ => simp at h
  | cons x xs ih =>
    cases b with
    | nil => simp at h
    | cons y ys =>
      simp only [List.cons_append, pyStrLe, pyStrLt]
      by_cases hxy : x < y
      · simp [hxy]
      · by_cases hyx : y < x
        · simp [hxy, hyx, List.cons.injEq, (ne_of_gt hyx : x ≠ y)]
        · have hx : x = y := char_eq_of_not_lt hxy hyx
          subst hx
          rw [if_neg hxy, if_neg hxy, if_neg hxy, if_neg hxy]
          simp only [List.append_eq]
          rw [ih (by simpa using h)]
          simp [List.cons.injEq]

theorem padNum_length (w n : Nat) : (padNum w n).length = w := by
  induction w generalizing n with
  | zero => rfl
  | succ w ih => simp [padNum, ih]

theorem digitChar_spec : ∀ a, a < 10 → ∀ b, b < 10 →
    ((digitChar a < digitChar b ↔ a < b) ∧ (digitChar a = digitChar b ↔ a = b)) := by
  decide

theorem digitChar_mod (n : Nat) : digitChar n = digitChar (n % 10) := by
  unfold digitChar; congr 1; omega

theorem digitChar_lt_iff (n m : Nat) : digitChar n < digitChar m ↔ n % 10 < m % 10 := by
  rw [digitChar_mod n, digitChar_mod m]
  exact (digitChar_spec _ (Nat.mod_lt _ (by omega)) _ (Nat.mod_lt _ (by omega))).1

theorem digitChar_eq_iff (n m : Nat) : digitChar n = digitChar m ↔ n % 10 = m % 10 := by
  rw [digitChar_mod n, digitChar_mod m]
  exact (digitChar_spec _ (Nat.mod_lt _ (by omega)) _ (Nat.mod_lt _ (by omega))).2

theorem pyStrLt_singleton (x y : Char) : pyStrLt [x] [y] = true ↔ x < y := by
  by_cases h : x < y
  · simp [pyStrLt, h]
  · by_cases h2 : y < x <;> simp [pyStrLt, h, h2]

theorem padNum_eq (w : Nat) : ∀ {n m : Nat}, n < 10 ^ w → m < 10 ^ w →
    (padNum w n = padNum w m ↔ n = m) := by
  induction w with
  | zero =>
    intro n m hn hm
    have h1 : (10 : Nat) ^ 0 = 1 := by norm_num
    have hn0 : n = 0 := by omega
    have hm0 : m = 0 := by omega
    subst hn0; subst hm0
    simp
  | succ w ih =>
    intro n m hn hm
    have hpow : (10 : Nat) ^ (w + 1) = 10 * 10 ^ w := by ring
    have hn' : n / 10 < 10 ^ w := by omega
    have hm' : m / 10 < 10 ^ w := by omega
    simp only [padNum]
    constructor
    · intro h
      obtain ⟨h1, h2⟩ := List.append_inj' h rfl
      have e1 : n / 10 = m / 10 := (ih hn' hm').mp h1
      have e2 : n % 10 = m % 10 := by
        have := (digitChar_eq_iff n m).mp (by simpa using h2)
        exact this
      omega
    · intro h; rw [h]

theorem padNum_lt (w : Nat) : ∀ {n m : Nat}, n < 10 ^ w → m < 10 ^ w →
    (pyStrLt (padNum w n) (padNum w m) = true ↔ n < m) := by
  induction w with
  | zero =>
    intro n m hn hm
    have h1 : (10 : Nat) ^ 0 = 1 := by norm_num
    have hn0 : n = 0 := by omega
    have hm0 : m = 0 := by omega
    subst hn0; subst hm0
    simp [padNum, pyStrLt]
  | succ w ih =>
    intro n m hn hm
    have hpow : (10 : Nat) ^ (w + 1) = 10 * 10 ^ w := by ring
    have hn' : n / 10 < 10 ^ w := by omega
    have hm' : m / 10 < 10 ^ w := by omega
    simp only [padNum]
    rw [pyStrLt_append (by simp [padNum_length]) _ _, ih hn' hm',
      padNum_eq w hn' hm', pyStrLt_singleton, digitChar_lt_iff]
    omega

theorem pyStrLe_pad_append {w a b : Nat} (ha : a < 10 ^ w) (hb : b < 10 ^ w) (hab : a ≤ b)
    {s t : PyStr} (h : a = b → pyStrLe s t = true) :
    pyStrLe (padNum w a ++ s) (padNum w b ++ t) = true := by
  rw [pyStrLe_append (by simp [padNum_length]) s t]
  rcases Nat.lt_or_ge a b with hlt | hge
  · exact Or.inl ((padNum_lt w ha hb).mpr hlt)
  · have heq : a = b := le_antisymm hab hge
    exact Or.inr ⟨by rw [heq], h heq⟩

theorem pyStrLe_pad {w a b : Nat} (ha : a < 10 ^ w) (hb : b < 10 ^ w) (hab : a ≤ b) :
    pyStrLe (padNum w a) (padNum w b) = true := by
  have := pyStrLe_pad_append ha hb hab (s := []) (t := []) (fun _ => rfl)
  simpa using this

theorem one_le_daysInMonth (y : Int) (m : Nat) : 1 ≤ daysInMonth y m := by
  unfold daysInMonth
  split
  · split <;> omega
  · split <;> omega

theorem daysInMonth_le_31 (y : Int) (m : Nat) : daysInMonth y m ≤ 31 := by
  unfold daysInMonth
  split
  · split <;> omega
  · split <;> omega

theorem daysInMonth_twelve (y : Int) : daysInMonth y 12 = 31 := rfl

theorem prevDay_valid {d : Date} (h : d.Valid) : (prevDay d).Valid := by
  obtain ⟨h1, h2, h3, h4⟩ := h
  unfold prevDay
  split
  · dsimp only [Date.Valid]; omega
  · split
    · dsimp only [Date.Valid]
      exact ⟨by omega, by omega, one_le_daysInMonth _ _, le_refl _⟩
    · dsimp only [Date.Valid]
      exact ⟨by omega, by omega, by omega, (daysInMonth_twelve _).ge⟩

theorem prevDay_dateLe {d : Date} (h : d.Valid) : dateLe (prevDay d) d := by
  obtain ⟨h1, h2, h3, h4⟩ := h
  unfold prevDay
  split
  · dsimp only [dateLe]; omega
  · split
    · dsimp only [dateLe]; omega
    · dsimp only [dateLe]; omega

theorem dateLe_refl (d : Date) : dateLe d d := by unfold dateLe; omega

theorem dateLe_trans {a b c : Date} (h1 : dateLe a b) (h2 : dateLe b c) : dateLe a c := by
  unfold dateLe at h1 h2 ⊢
  omega

theorem prevDay_iter_valid_le (d : Date) (h : d.Valid) (k : Nat) :
    (prevDay^[k] d).Valid ∧ dateLe (prevDay^[k] d) d := by
  induction k with
  | zero => exact ⟨h, dateLe_refl d⟩
  | succ k ih =>
    rw [Function.iterate_succ_apply']
    exact ⟨prevDay_valid ih.1, dateLe_trans (prevDay_dateLe ih.1) ih.2⟩

theorem addDays_nonpos {d : Date} (h : d.Valid) {r : Int} (hr : r ≤ 0) :
    (addDays d r).Valid ∧ dateLe (addDays d r) d := by
  unfold addDays
  split
  · have h0 : r.toNat = 0 := by omega
    rw [h0, Function.iterate_zero_apply]
    exact ⟨h, dateLe_refl d⟩
  · exact prevDay_iter_valid_le d h _

theorem febDays_le (y : Int) : febDays y ≤ 29 := by
  unfold febDays
  split <;> omega

theorem daysBeforeMonth_le (y : Int) (m : Nat) :
    daysBeforeMonth y m ≤ 306 + febDays y := by
  have hf := febDays_le y
  unfold daysBeforeMonth
  split <;> omega

theorem toOrdinal_le_max {d : Date} (hv : d.Valid) (hy1 : 1 ≤ d.year)
    (hy2 : d.year ≤ 9999) : toOrdinal d ≤ 3652059 := by
  obtain ⟨h1, h2, h3, h4⟩ := hv
  have hd31 : d.day ≤ 31 := le_trans h4 (daysInMonth_le_31 _ _)
  have hdbm := daysBeforeMonth_le d.year d.month
  have hf := febDays_le d.year
  rcases eq_or_lt_of_le hy2 with heq | hlt
  · unfold toOrdinal
    rw [heq] at hdbm ⊢
    have hfe : febDays (9999 : Int) = 28 := by decide
    omega
  · unfold toOrdinal
    omega

theorem dateAddTimedelta_ok {d : Date} {n : Int} (h1 : -999999999 ≤ n)
    (h2 : n ≤ 999999999) (h3 : 1 ≤ toOrdinal d + n) (h4 : toOrdinal d + n ≤ 3652059) :
    dateAddTimedelta d n = Except.ok (addDays d n) := by
  unfold dateAddTimedelta
  rw [if_neg (by omega), if_pos ⟨h3, h4⟩]

theorem fmtDate_time_le {d1 d2 : Date} (hv1 : d1.Valid) (hv2 : d2.Valid)
    (hy1 : 1 ≤ d2.year) (hy2 : d2.year ≤ 9999) (hle : dateLe d1 d2)
    (h mi s : Nat) (hh : h < 100) (hm : mi < 100) (hs : s < 100) :
    pyStrLe (strftimeDateYmdHms d1) (strftimeNowYmdHms d2 h mi s) = true := by
  obtain ⟨a1, a2, a3, a4⟩ := hv1
  obtain ⟨b1, b2, b3, b4⟩ := hv2
  have a31 := daysInMonth_le_31 d1.year d1.month
  have b31 := daysInMonth_le_31 d2.year d2.month
  have hyy : d1.year ≤ d2.year := by unfold dateLe at hle; omega
  have hp4 : (10 : Nat) ^ 4 = 10000 := by norm_num
  have hp2 : (10 : Nat) ^ 2 = 100 := by norm_num
  unfold strftimeDateYmdHms strftimeNowYmdHms fmtDate
  simp only [List.append_assoc]
  apply pyStrLe_pad_append (by omega) (by omega) (by omega)
  intro hyeq
  have hyeq' : d1.year = d2.year := by omega
  have hmm : d1.month ≤ d2.month := by unfold dateLe at hle; omega
  apply pyStrLe_pad_append (by omega) (by omega) (by omega)
  intro hmeq
  have hdd : d1.day ≤ d2.day := by unfold dateLe at hle; omega
  apply pyStrLe_pad_append (by omega) (by omega) (by omega)
  intro _
  apply pyStrLe_pad_append (by omega) (by omega) (by omega)
  intro _
  apply pyStrLe_pad_append (by omega) (by omega) (by omega)
  intro _
  exact pyStrLe_pad (by omega) (by omega) (by omega)

/-- The `deletion_date` value the loop body would extract for an image, if
the image has a tag list. -/
def imageDeleteOn? (img : Image) : Option PyVal := img.tags.map extractDeleteOn

/-- An image whose `DeleteOn` tag is present with a readable string value. -/
def WFImage (img : Image) : Prop := ∃ s, imageDeleteOn? img = some (PyVal.str s)

/-- The selection decision for a well-formed image: its own `DeleteOn`
string compared against the clock. -/
def selWF (now : PyStr) (img : Image) : Bool :=
  match imageDeleteOn? img with
  | some (PyVal.str s) => pyStrLe s now
  | _ => false

theorem get_list_go_wf (now : PyStr) :
    ∀ (imgs : List Image), (∀ img ∈ imgs, WFImage img) →
    ∀ (st : Option PyVal) (acc : List PyStr),
      get_list_go now st acc imgs =
        Except.ok (acc.reverse ++ (imgs.filter (selWF now)).map Image.id) := by
  intro imgs
  induction imgs with
  | nil => intro _ st acc; simp [get_list_go]
  | cons img rest ih =>
    intro h st acc
    obtain ⟨s, hs⟩ := h img (List.mem_cons_self img rest)
    have hrest : ∀ i ∈ rest, WFImage i := fun i hi => h i (List.mem_cons_of_mem _ hi)
    cases htags : img.tags with
    | none => rw [imageDeleteOn?, htags] at hs; simp at hs
    | some ts =>
      have hex : extractDeleteOn ts = PyVal.str s := by
        rw [imageDeleteOn?, htags] at hs; simpa using hs
      have hsel : selWF now img = pyStrLe s now := by
        rw [selWF, imageDeleteOn?, htags]
        simp [hex]
      simp only [get_list_go, htags, hex, pyLeStr]
      rw [ih hrest]
      rcases Bool.eq_false_or_eq_true (pyStrLe s now) with hb | hb <;>
        simp [hb, List.filter_cons, hsel, List.reverse_cons, List.append_assoc]

theorem get_list_wf (now : PyStr) (imgs : List Image) (h : ∀ img ∈ imgs, WFImage img) :
    get_list_of_images_to_deregister now imgs =
      Except.ok ((imgs.filter (selWF now)).map Image.id) := by
  rw [get_list_of_images_to_deregister, get_list_go_wf now imgs h]
  simp

theorem get_list_go_unreadable (now : PyStr) (st : Option PyVal) (acc : List PyStr)
    (img : Image) (rest : List Image) (ts : List ImageTag) (htags : img.tags = some ts)
    (t : ImageTag) (hhead : (ts.filter (fun u => u.key == "DeleteOn".data)).head? = some t)
    (hval : t.value? = none) :
    get_list_go now st acc (img :: rest) = Except.error PyErr.typeError := by
  have hex : extractDeleteOn ts = PyVal.noneV := by
    rw [extractDeleteOn, hhead]
    simp [hval]
  simp [get_list_go, htags, hex, pyLeStr]

theorem strFindAux_some_spec (needle : PyStr) :
    ∀ (s : PyStr) (b k : Nat), strFindAux needle s b = some k →
      b ≤ k ∧ needle.isPrefixOf (s.drop (k - b)) = true := by
  intro s
  induction s with
  | nil =>
    intro b k h
    rw [strFindAux] at h
    split at h
    · rename_i hp
      obtain rfl : b = k := by injection h
      simpa using hp
    · cases h
  | cons c rest ih =>
    intro b k h
    rw [strFindAux] at h
    split at h
    · rename_i hp
      obtain rfl : b = k := by injection h
      simpa using hp
    · obtain ⟨hbk, hdrop⟩ := ih (b + 1) k h
      refine ⟨by omega, ?_⟩
      have : k - b = (k - (b + 1)) + 1 := by omega
      rw [this, List.drop_succ_cons]
      exact hdrop

theorem strFindAux_none_spec (needle : PyStr) :
    ∀ (s : PyStr) (b : Nat), strFindAux needle s b = none →
      ∀ j, needle.isPrefixOf (s.drop j) = false := by
  intro s
  induction s with
  | nil =>
    intro b h j
    rw [strFindAux] at h
    split at h
    · cases h
    · rename_i hp
      rw [List.drop_nil]
      exact Bool.eq_false_iff.mpr hp
  | cons c rest ih =>
    intro b h j
    rw [strFindAux] at h
    split at h
    · cases h
    · rename_i hp
      cases j with
      | zero => exact Bool.eq_false_iff.mpr hp
      | succ j => rw [List.drop_succ_cons]; exact ih (b + 1) h j

theorem strFindAux_of_isPrefixOf (needle s : PyStr) (b : Nat)
    (h : needle.isPrefixOf s = true) : strFindAux needle s b = some b := by
  cases s <;> simp [strFindAux, h]

theorem strFind_pos_iff (s needle : PyStr) :
    (0 < strFind s needle) ↔
      ((∃ i, 0 < i ∧ needle.isPrefixOf (s.drop i) = true) ∧
        needle.isPrefixOf s = false) := by
  unfold strFind
  cases hfind : strFindAux needle s 0 with
  | none =>
    dsimp only
    constructor
    · intro h; norm_num at h
    · rintro ⟨⟨i, _, hp⟩, _⟩
      have := strFindAux_none_spec needle s 0 hfind i
      rw [hp] at this; cases this
  | some k =>
    dsimp only
    constructor
    · intro hk
      have hk' : 0 < k := by exact_mod_cast hk
      obtain ⟨_, hp⟩ := strFindAux_some_spec needle s 0 k hfind
      refine ⟨⟨k, hk', by simpa using hp⟩, ?_⟩
      by_contra hc
      have hpre : needle.isPrefixOf s = true := by
        revert hc; cases needle.isPrefixOf s <;> simp
      have h0 := strFindAux_of_isPrefixOf needle s 0 hpre
      rw [hfind] at h0
      have hk0 : k = 0 := by injection h0
      omega
    · rintro ⟨⟨i, _, _⟩, hnp⟩
      obtain ⟨_, hpk⟩ := strFindAux_some_spec needle s 0 k hfind
      rcases Nat.eq_zero_or_pos k with rfl | hpos
      · simp only [Nat.sub_zero, List.drop_zero] at hpk
        rw [hnp] at hpk; cases hpk
      · exact_mod_cast hpos

theorem delete_snapshots_mem (snapshots : List Snapshot) (a sid : PyStr) :
    sid ∈ delete_snapshots snapshots a ↔
      ∃ sn ∈ snapshots, sn.snapshotId = sid ∧ 0 < strFind sn.description a := by
  unfold delete_snapshots
  simp only [List.mem_map, List.mem_filter, decide_eq_true_eq]
  constructor
  · rintro ⟨sn, ⟨hmem, hfind⟩, hid⟩
    exact ⟨sn, hmem, hid, hfind⟩
  · rintro ⟨sn, hmem, hid, hfind⟩
    exact ⟨sn, ⟨hmem, hfind⟩, hid⟩

theorem deregister_amis_ok_trace (snapshots : List Snapshot) :
    ∀ amis : List PyStr,
      deregister_amis okDereg snapshots amis =
        Except.ok (amis.flatMap (fun a =>
          Ev.dereg a :: (delete_snapshots snapshots a).map Ev.delSnap)) := by
  intro amis
  induction amis with
  | nil => rfl
  | cons a rest ih =>
    simp only [deregister_amis, okDereg, ih]
    rfl

theorem intsOfTags_ok : ∀ (ts : List Tag), (∀ u ∈ ts, (pyInt? u.value).isSome) →
    ∃ l, intsOfTags ts = Except.ok l := by
  intro ts
  induction ts with
  | nil => intro _; exact ⟨[], rfl⟩
  | cons t ts ih =>
    intro h
    obtain ⟨v, hv⟩ := Option.isSome_iff_exists.mp (h t (List.mem_cons_self t ts))
    obtain ⟨l, hl⟩ := ih (fun u hu => h u (List.mem_cons_of_mem _ hu))
    have h1 : int_of_tag t = Except.ok v := by rw [int_of_tag, hv]
    refine ⟨v :: l, ?_⟩
    simp only [intsOfTags, h1, hl]
    rfl

/-- C6: for enumerated images whose `DeleteOn` tag is well formed (tag
list present, `DeleteOn` tag present with a readable string value), the
expiry phase succeeds and selects exactly the images whose `DeleteOn`
string is lexicographically less than or equal to the clock string
(`selWF` compares the image's own `DeleteOn` value with `pyStrLe`). -/
theorem c6_select_iff_deleteon_le_now (now : PyStr) (imgs : List Image)
    (h : ∀ img ∈ imgs, WFImage img) :
    get_list_of_images_to_deregister now imgs =
      Except.ok ((imgs.filter (selWF now)).map Image.id) :=
  get_list_wf now imgs h

/-- Witness for C6 at the claim's concrete inputs: with the clock at
"20240102000000", an image with `DeleteOn = "20240101000000"` is selected
and an image with `DeleteOn = "20240103000000"` is not. -/
theorem c6_witness :
    (∀ img ∈ ([⟨"ami-a".data, some [⟨"DeleteOn".data, some "20240101000000".data⟩]⟩,
               ⟨"ami-b".data, some [⟨"DeleteOn".data, some "20240103000000".data⟩]⟩] :
        List Image), WFImage img) ∧
    get_list_of_images_to_deregister "20240102000000".data
      [⟨"ami-a".data, some [⟨"DeleteOn".data, some "20240101000000".data⟩]⟩,
       ⟨"ami-b".data, some [⟨"DeleteOn".data, some "20240103000000".data⟩]⟩] =
      Except.ok ["ami-a".data] := by
  have hwf : ∀ img ∈ ([⟨"ami-a".data, some [⟨"DeleteOn".data,
      some "20240101000000".data⟩]⟩, ⟨"ami-b".data, some [⟨"DeleteOn".data,
      some "20240103000000".data⟩]⟩] : List Image), WFImage img := by
    intro img himg
    simp only [List.mem_cons, List.not_mem_nil, or_false] at himg
    rcases himg with rfl | rfl
    · exact ⟨"20240101000000".data, rfl⟩
    · exact ⟨"20240103000000".data, rfl⟩
  exact ⟨hwf, (c6_select_iff_deleteon_le_now "20240102000000".data _ hwf).trans
    (by decide)⟩

/-- C9: in the expiry selection loop, (1) a first image with `tags = None`
makes the comparison read the never-assigned `deletion_date` variable
(`NameError`); (2) a later image with `tags = None` is decided by the
`deletion_date` value extracted from the previous, unrelated image: with
a preceding image whose `DeleteOn` is `d`, both images are selected
exactly when `d <= now`, although the second image carries no data. -/
theorem c9_deletion_date_scoping :
    (∀ (now id : PyStr) (rest : List Image),
      get_list_of_images_to_deregister now (⟨id, none⟩ :: rest) =
        Except.error PyErr.nameError) ∧
    (∀ (now aid bid d : PyStr),
      get_list_of_images_to_deregister now
        [⟨aid, some [⟨"DeleteOn".data, some d⟩]⟩, ⟨bid, none⟩] =
        Except.ok (if pyStrLe d now then [aid, bid] else [])) := by
  constructor
  · intro now id rest
    rfl
  · intro now aid bid d
    show get_list_go _ _ _ _ = _
    have hex : extractDeleteOn [⟨"DeleteOn".data, some d⟩] = PyVal.str d := rfl
    simp only [get_list_go, hex, pyLeStr]
    rcases Bool.eq_false_or_eq_true (pyStrLe d now) with hb | hb <;>
      simp [hb, get_list_go, pyLeStr]

/-- C5 fails on the code: an image whose `DeleteOn` tag is structurally
present but whose value cannot be read is not silently treated as
not-yet-expired; under Python 3 the comparison `None <= str` raises
`TypeError`, aborting the whole expiry selection. -/
theorem c5_counterexample :
    get_list_of_images_to_deregister "20240102000000".data
      [⟨"ami-1".data, some [⟨"DeleteOn".data, none⟩]⟩] =
      Except.error PyErr.typeError := by decide

/-- C5 amended: for every enumerated image whose `DeleteOn` tag is
structurally present but whose value cannot be read, the expiry selection
raises `TypeError` when that image is reached (here: reached first), so
the image is not selected but an error is raised and the phase aborts. -/
theorem c5_unreadable_value_raises (now : PyStr) (img : Image) (rest : List Image)
    (ts : List ImageTag) (t : ImageTag) (htags : img.tags = some ts)
    (hhead : (ts.filter (fun u => u.key == "DeleteOn".data)).head? = some t)
    (hval : t.value? = none) :
    get_list_of_images_to_deregister now (img :: rest) = Except.error PyErr.typeError :=
  get_list_go_unreadable now none [] img rest ts htags t hhead hval

/-- Witness for the amended C5 at a concrete image. -/
theorem c5_witness :
    get_list_of_images_to_deregister "20250101000000".data
      [⟨"ami-9".data, some [⟨"Name".data, some "n".data⟩, ⟨"DeleteOn".data, none⟩]⟩] =
      Except.error PyErr.typeError :=
  c5_unreadable_value_raises "20250101000000".data _ []
    [⟨"Name".data, some "n".data⟩, ⟨"DeleteOn".data, none⟩] ⟨"DeleteOn".data, none⟩
    rfl (by decide) rfl

/-- C8: retention resolution returns 7 when no `Retention` tag is present,
and the integer value of the first `Retention` tag when the `Retention`
values present are parseable. -/
theorem c8_resolve_retention :
    (∀ (i : Instance),
      i.tags.filter (fun t => t.key == "Retention".data) = [] →
      get_instance_retention_days i = Except.ok 7) ∧
    (∀ (i : Instance) (t0 : Tag) (ts : List Tag) (v : Int),
      i.tags.filter (fun t => t.key == "Retention".data) = t0 :: ts →
      pyInt? t0.value = some v →
      (∀ u ∈ ts, (pyInt? u.value).isSome) →
      get_instance_retention_days i = Except.ok v) := by
  constructor
  · intro i hf
    rw [get_instance_retention_days, hf]
    rfl
  · intro i t0 ts v hf hv hall
    obtain ⟨l, hl⟩ := intsOfTags_ok ts hall
    have h1 : int_of_tag t0 = Except.ok v := by rw [int_of_tag, hv]
    rw [get_instance_retention_days, hf]
    simp only [intsOfTags, h1, hl]
    rfl

/-- Witness for C8: no `Retention` tag gives 7; `Retention = "30"` gives
the integer 30. -/
theorem c8_witness :
    get_instance_retention_days ⟨"i-1".data, [⟨"Name".data, "web".data⟩]⟩ =
      Except.ok 7 ∧
    get_instance_retention_days ⟨"i-2".data, [⟨"Retention".data, "30".data⟩]⟩ =
      Except.ok 30 :=
  ⟨c8_resolve_retention.1 ⟨"i-1".data, [⟨"Name".data, "web".data⟩]⟩ (by decide),
   c8_resolve_retention.2 ⟨"i-2".data, [⟨"Retention".data, "30".data⟩]⟩
     ⟨"Retention".data, "30".data⟩ [] 30 (by decide) (by decide)
     (fun u hu => absurd hu (List.not_mem_nil u))⟩

/-- C7 fails on the code at the range boundary: for the creation date
9999-12-31 and one retention day the addition at line 104 raises
`OverflowError` instead of returning a formatted string (and no tag is
written). -/
theorem c7_counterexample :
    deregister_on ⟨9999, 12, 31⟩ 1 = Except.error PyErr.overflowError := by decide

/-- C7 amended: for every creation date and retention-days value for
which `creation + retention` days stays within Python's timedelta bound
(999999999 days) and date range (ordinals 1..3652059), the computed
`DeleteOn` value is the calendar date `creation + retention` rendered as
`%Y%m%d` followed by a zeroed `%H%M%S` component (a 14-character
fixed-width string); outside that range line 104 raises `OverflowError`.
In particular 2024-01-01 plus 10 days gives "20240111000000". -/
theorem c7_compute_deleteon :
    (∀ (c : Date) (r : Int),
      -999999999 ≤ r → r ≤ 999999999 →
      1 ≤ toOrdinal c + r → toOrdinal c + r ≤ 3652059 →
      deregister_on c r = Except.ok (fmtDate (addDays c r) ++ "000000".data) ∧
      (fmtDate (addDays c r) ++ "000000".data).length = 14) ∧
    deregister_on ⟨2024, 1, 1⟩ 10 = Except.ok "20240111000000".data := by
  constructor
  · intro c r h1 h2 h3 h4
    constructor
    · rw [deregister_on, dateAddTimedelta_ok h1 h2 h3 h4]
      dsimp only
      rw [strftimeDateYmdHms]
      simp only [List.append_assoc]
      congr 1
    · have hz : ("000000".data : PyStr).length = 6 := by decide
      rw [fmtDate]
      simp [padNum_length, hz]
  · decide

/-- Witness for the amended C7: the in-range hypotheses hold at
2024-01-01 with 10 retention days, and the theorem yields the formatted
string. -/
theorem c7_witness :
    (-999999999 ≤ (10 : Int)) ∧ ((10 : Int) ≤ 999999999) ∧
    (1 ≤ toOrdinal ⟨2024, 1, 1⟩ + 10) ∧ (toOrdinal ⟨2024, 1, 1⟩ + 10 ≤ 3652059) ∧
    (deregister_on ⟨2024, 1, 1⟩ 10 =
        Except.ok (fmtDate (addDays ⟨2024, 1, 1⟩ 10) ++ "000000".data) ∧
      (fmtDate (addDays ⟨2024, 1, 1⟩ 10) ++ "000000".data).length = 14) :=
  ⟨by decide, by decide, by decide, by decide,
   c7_compute_deleteon.1 ⟨2024, 1, 1⟩ 10 (by decide) (by decide) (by decide) (by decide)⟩

/-- C3 is the intended behavior; the code instead lets the parse failure
escape: a present but non-numeric `Retention` value raises an uncaught
`ValueError`, and the backup phase aborts before the remaining instances
are processed (the run returns the error instead of a per-instance skip).
-/
theorem c3_unparseable_retention_aborts_run :
    get_instance_retention_days ⟨"i-1".data, [⟨"Retention".data, "abc".data⟩]⟩ =
      Except.error PyErr.valueError ∧
    create_backup_amis (fun _ _ => Except.ok "ami-1".data) ⟨2024, 1, 1⟩
      [⟨"i-1".data, [⟨"Retention".data, "abc".data⟩]⟩, ⟨"i-2".data, []⟩] =
      Except.error PyErr.valueError := by
  constructor <;> decide

/-- C4 fails on the code: a provider failure while creating the image for
the first of two instances, or while deregistering the first of two
images, makes the whole phase return that error instead of continuing
with the remaining items. -/
theorem c4_counterexample :
    create_backup_amis (fun _ _ => Except.error PyErr.clientError) ⟨2024, 1, 1⟩
      [⟨"i-1".data, []⟩, ⟨"i-2".data, []⟩] = Except.error PyErr.clientError ∧
    deregister_amis (fun _ => Except.error PyErr.clientError) []
      ["ami-1".data, "ami-2".data] = Except.error PyErr.clientError := by
  constructor <;> rfl

/-- C4 amended: a failure of a per-item provider operation (image
creation in the backup phase, image deregistration in the expiry phase)
propagates out and aborts the whole phase; the remaining items are not
processed. -/
theorem c4_amended_failure_propagates :
    (∀ (e : PyErr) (today : Date) (i1 : Instance) (rest : List Instance) (n : Int),
      get_instance_retention_days i1 = Except.ok n →
      create_backup_amis (fun _ _ => Except.error e) today (i1 :: rest) =
        Except.error e) ∧
    (∀ (e : PyErr) (snapshots : List Snapshot) (a : PyStr) (rest : List PyStr),
      deregister_amis (fun _ => Except.error e) snapshots (a :: rest) =
        Except.error e) := by
  constructor
  · intro e today i1 rest n hn
    simp only [create_backup_amis, hn]
  · intro e snapshots a rest
    rfl

/-- Witness for the amended C4 at concrete inputs. -/
theorem c4_witness :
    create_backup_amis (fun _ _ => Except.error PyErr.clientError) ⟨2025, 6, 1⟩
      [⟨"i-7".data, []⟩] = Except.error PyErr.clientError ∧
    deregister_amis (fun _ => Except.error PyErr.clientError)
      [⟨"snap-7".data, "d".data⟩] ["ami-7".data] = Except.error PyErr.clientError :=
  ⟨c4_amended_failure_propagates.1 PyErr.clientError ⟨2025, 6, 1⟩ ⟨"i-7".data, []⟩ [] 7
      (by decide),
   c4_amended_failure_propagates.2 PyErr.clientError [⟨"snap-7".data, "d".data⟩]
      "ami-7".data []⟩

/-- C1 fails on the code at position 0: the source deletes a snapshot only
when `description.find(image_id) > 0`, so a snapshot whose description
contains the image id at position 0 is not deleted — here the only
snapshot matches at position 0 and the trace holds no deletion. -/
theorem c1_counterexample :
    strFind "ami-123 root volume".data "ami-123".data = 0 ∧
    deregister_amis okDereg [⟨"snap-1".data, "ami-123 root volume".data⟩]
      ["ami-123".data] = Except.ok [Ev.dereg "ami-123".data] := by
  constructor <;> decide

/-- C1 amended: for every image id selected for deletion, the orchestrator
first deregisters the image and then deletes exactly the snapshots whose
description contains that image id as a substring at a position strictly
greater than 0 (a match only at position 0 is skipped). -/
theorem c1_amended_dereg_then_delete :
    (∀ (snapshots : List Snapshot) (amis : List PyStr),
      deregister_amis okDereg snapshots amis =
        Except.ok (amis.flatMap (fun a =>
          Ev.dereg a :: (delete_snapshots snapshots a).map Ev.delSnap))) ∧
    (∀ (snapshots : List Snapshot) (a sid : PyStr),
      sid ∈ delete_snapshots snapshots a ↔
        ∃ sn ∈ snapshots, sn.snapshotId = sid ∧
          (∃ i, 0 < i ∧ a.isPrefixOf (sn.description.drop i) = true) ∧
          a.isPrefixOf sn.description = false) := by
  constructor
  · exact fun snapshots amis => deregister_amis_ok_trace snapshots amis
  · intro snapshots a sid
    rw [delete_snapshots_mem]
    constructor
    · rintro ⟨sn, hm, hid, hf⟩
      exact ⟨sn, hm, hid, (strFind_pos_iff _ _).mp hf⟩
    · rintro ⟨sn, hm, hid, hf⟩
      exact ⟨sn, hm, hid, (strFind_pos_iff _ _).mpr hf⟩

/-- C2 fails on the code: the needle is a single image id (not the whole
list), and a snapshot whose description contains the id at a positive
position is deleted — snapshots are deleted, the match does not "fail
entirely". -/
theorem c2_counterexample :
    deregister_amis okDereg
      [⟨"snap-1".data, "Created by CreateImage for ami-123".data⟩]
      ["ami-123".data] =
      Except.ok [Ev.dereg "ami-123".data, Ev.delSnap "snap-1".data] := by decide

/-- C2 amended: in a run where every deregistration succeeds, the
snapshot-matching step runs once per selected image id with that single
id as the substring needle: a snapshot deletion appears in the trace
exactly when some selected image id matches the snapshot's description
(per `delete_snapshots` on that one id). -/
theorem c2_amended_per_image_needle (snapshots : List Snapshot) (amis : List PyStr)
    (tr : List Ev)
    (h : deregister_amis okDereg snapshots amis = Except.ok tr) (sid : PyStr) :
    Ev.delSnap sid ∈ tr ↔ ∃ a ∈ amis, sid ∈ delete_snapshots snapshots a := by
  have h2 := deregister_amis_ok_trace snapshots amis
  rw [h] at h2
  have htr : tr = amis.flatMap (fun a =>
      Ev.dereg a :: (delete_snapshots snapshots a).map Ev.delSnap) := by
    injection h2
  subst htr
  simp [List.mem_flatMap]

/-- Witness for the amended C2 at concrete inputs. -/
theorem c2_witness :
    deregister_amis okDereg [⟨"snap-5".data, "xx ami-5".data⟩] ["ami-5".data] =
      Except.ok [Ev.dereg "ami-5".data, Ev.delSnap "snap-5".data] ∧
    (Ev.delSnap "snap-5".data ∈
        [Ev.dereg "ami-5".data, Ev.delSnap "snap-5".data] ↔
      ∃ a ∈ (["ami-5".data] : List PyStr),
        "snap-5".data ∈ delete_snapshots [⟨"snap-5".data, "xx ami-5".data⟩] a) :=
  ⟨by decide,
   c2_amended_per_image_needle [⟨"snap-5".data, "xx ami-5".data⟩] ["ami-5".data]
     [Ev.dereg "ami-5".data, Ev.delSnap "snap-5".data] (by decide) "snap-5".data⟩

/-- C10 fails on the code for large negative retentions: with
`Retention = "-1000000"` (parseable, so `r ≤ 0`) the date addition at
line 104 raises `OverflowError`, the backup phase aborts before the
image is tagged, and the run never reaches the expiry phase — the
freshly created image receives no `DeleteOn` value and is not selected.
-/
theorem c10_counterexample :
    pyInt? "-1000000".data = some (-1000000) ∧
    create_backup_amis (fun _ _ => Except.ok "ami-1".data) ⟨2024, 1, 15⟩
      [⟨"i-1".data, [⟨"Backup".data, "Yes".data⟩,
        ⟨"Retention".data, "-1000000".data⟩]⟩] =
      Except.error PyErr.overflowError := by
  constructor <;> decide

/-- C10 amended: for an instance whose `Retention` value parses to
`r ≤ 0` such that `today + r` days stays within Python's timedelta bound
and date range, line 104 returns the rendered date (zeroed time), the
backup phase tags the created image with it, that string is
lexicographically at most any clock string of the same day, and the
expiry selection of the very same run therefore selects the freshly
created image; outside that range line 104 raises `OverflowError` and
the run aborts before tagging. -/
theorem c10_nonpositive_retention_selected_same_run
    (today : Date) (h mi s : Nat) (r : Int) (rs iid imgId : PyStr)
    (hv : today.Valid) (hy1 : 1 ≤ today.year) (hy2 : today.year ≤ 9999)
    (hh : h < 100) (hm : mi < 100) (hs : s < 100)
    (hparse : pyInt? rs = some r) (hr : r ≤ 0)
    (htd : -999999999 ≤ r) (hord : 1 ≤ toOrdinal today + r) :
    deregister_on today r = Except.ok (strftimeDateYmdHms (addDays today r)) ∧
    create_backup_amis (fun _ _ => Except.ok imgId) today
      [⟨iid, [⟨"Backup".data, "Yes".data⟩, ⟨"Retention".data, rs⟩]⟩] =
      Except.ok [(imgId, strftimeDateYmdHms (addDays today r))] ∧
    pyStrLe (strftimeDateYmdHms (addDays today r))
      (strftimeNowYmdHms today h mi s) = true ∧
    get_list_of_images_to_deregister (strftimeNowYmdHms today h mi s)
      [⟨imgId, some [⟨"DeleteOn".data,
        some (strftimeDateYmdHms (addDays today r))⟩]⟩] =
      Except.ok [imgId] := by
  have hmax := toOrdinal_le_max hv hy1 hy2
  have hok : dateAddTimedelta today r = Except.ok (addDays today r) :=
    dateAddTimedelta_ok htd (by omega) hord (by omega)
  have hdor : deregister_on today r =
      Except.ok (strftimeDateYmdHms (addDays today r)) := by
    rw [deregister_on, hok]
  have hadd := addDays_nonpos hv hr
  have hle : pyStrLe (strftimeDateYmdHms (addDays today r))
      (strftimeNowYmdHms today h mi s) = true :=
    fmtDate_time_le hadd.1 hv hy1 hy2 hadd.2 h mi s hh hm hs
  refine ⟨hdor, ?_, hle, ?_⟩
  · have h1 : int_of_tag ⟨"Retention".data, rs⟩ = Except.ok r := by
      rw [int_of_tag]
      dsimp only
      rw [hparse]
    have h2 : intsOfTags (([⟨"Backup".data, "Yes".data⟩, ⟨"Retention".data, rs⟩] :
        List Tag).filter (fun t => t.key == "Retention".data)) = Except.ok [r] := by
      have hfil : (([⟨"Backup".data, "Yes".data⟩, ⟨"Retention".data, rs⟩] :
          List Tag).filter (fun t => t.key == "Retention".data)) =
          [⟨"Retention".data, rs⟩] := rfl
      rw [hfil]
      simp only [intsOfTags, h1]
      rfl
    have hret : get_instance_retention_days
        ⟨iid, [⟨"Backup".data, "Yes".data⟩, ⟨"Retention".data, rs⟩]⟩ = Except.ok r := by
      rw [get_instance_retention_days]
      rw [h2]
    simp only [create_backup_amis, hret]
    rw [hdor]
  · have hwf : ∀ img ∈ ([⟨imgId, some [⟨"DeleteOn".data,
        some (strftimeDateYmdHms (addDays today r))⟩]⟩] : List Image), WFImage img := by
      intro img hm
      rcases List.mem_singleton.mp hm with rfl
      exact ⟨strftimeDateYmdHms (addDays today r), rfl⟩
    rw [get_list_wf _ _ hwf]
    have hsel : selWF (strftimeNowYmdHms today h mi s)
        ⟨imgId, some [⟨"DeleteOn".data,
          some (strftimeDateYmdHms (addDays today r))⟩]⟩ = true := hle
    simp [List.filter_cons, hsel]

/-- Witness for the amended C10: 2024-01-15, `Retention = "-3"`, clock
12:30:05 — the in-range hypotheses hold and the fresh image is selected.
-/
theorem c10_witness :
    deregister_on ⟨2024, 1, 15⟩ (-3) =
      Except.ok (strftimeDateYmdHms (addDays ⟨2024, 1, 15⟩ (-3))) ∧
    create_backup_amis (fun _ _ => Except.ok "ami-1".data) ⟨2024, 1, 15⟩
      [⟨"i-1".data, [⟨"Backup".data, "Yes".data⟩, ⟨"Retention".data, "-3".data⟩]⟩] =
      Except.ok [("ami-1".data, strftimeDateYmdHms (addDays ⟨2024, 1, 15⟩ (-3)))] ∧
    pyStrLe (strftimeDateYmdHms (addDays ⟨2024, 1, 15⟩ (-3)))
      (strftimeNowYmdHms ⟨2024, 1, 15⟩ 12 30 5) = true ∧
    get_list_of_images_to_deregister (strftimeNowYmdHms ⟨2024, 1, 15⟩ 12 30 5)
      [⟨"ami-1".data, some [⟨"DeleteOn".data,
        some (strftimeDateYmdHms (addDays ⟨2024, 1, 15⟩ (-3)))⟩]⟩] =
      Except.ok ["ami-1".data] :=
  c10_nonpositive_retention_selected_same_run ⟨2024, 1, 15⟩ 12 30 5 (-3) "-3".data
    "i-1".data "ami-1".data (by decide) (by decide) (by decide) (by decide) (by decide)
    (by decide) (by decide) (by decide) (by decide) (by decide)
